import Mathlib

/-!
Verification development for the wasmtime host-bindings generator
(`crates/gen-wasmtime/src/lib.rs`).

The generator is shallowly embedded: the `Wasmtime` state struct and the
methods the claims touch (`tmp`, `push_block`/`finish_block`,
`allocate_i64_array`, the `emit` instruction transducer, the `import` and
`export` framers, the glue-trait section of `finish`, and
`print_intrinsics`) are translated into executable Lean functions.  Rust
panics (`unimplemented!`, `assert!`, slice-index panics) are modelled as
`Except.error`; `wasmtime::Trap` values in the *generated* code are
modelled as `Except.error` carrying the trap message.

External collaborators that are not part of this repository (the `witx`
instruction driver, the `heck` case-conversion crate, the reused
`witx-bindgen-gen-rust` type printer) are modelled from the spec where the
claims need them; each such definition says so in its doc comment.

Machine integers are modelled as `Int`/`Nat` with explicit two-power
bounds; guest memory is a list of byte values.
-/

/-- Modelled from the spec: the case-conversion service (external `heck`
crate): `to_camel_case` capitalizes each `-`/`_`-separated word and joins
them. The claims never depend on its internals, only on it being the
transformation applied to supplied names. -/
def to_camel_case (s : String) : String :=
  String.join ((s.split (fun c => c = '-' ∨ c = '_')).map (fun w =>
    match w.data with
    | [] => ""
    | c :: cs => String.mk (c.toUpper :: cs)))

/-- Modelled from the spec: the case-conversion service (external `heck`
crate): `to_snake_case` lowercases and replaces `-` with `_`. -/
def to_snake_case (s : String) : String :=
  String.map (fun c => if c = '-' then '_' else c.toLower) s

/-- Core wasm value types (from the external `witx` crate's `WasmType`). -/
inductive WasmType
  | i32
  | i64
  | f32
  | f64
deriving DecidableEq, Repr

/-- Modelled from the spec: `witx_bindgen_gen_rust::wasm_type`, the name of
a core wasm type in the generated source. -/
def wasm_type : WasmType → String
  | .i32 => "i32"
  | .i64 => "i64"
  | .f32 => "f32"
  | .f64 => "f64"

/-- Integer representation of a bitflags type (external `witx` crate). -/
inductive IntRepr
  | u8
  | u16
  | u32
  | u64
deriving DecidableEq, Repr

/-- Modelled from the spec: `witx_bindgen_gen_rust::int_repr`. -/
def int_repr : IntRepr → String
  | .u8 => "u8"
  | .u16 => "u16"
  | .u32 => "u32"
  | .u64 => "u64"

/-- `enum NeededFunction` from the source: the kind tag for a required
guest export. -/
inductive NeededFunction
  | Malloc
  | Free
deriving DecidableEq, Repr

/-- Element-type data consumed by the canonical-list instructions: whether
the element is `char`, and its `mem_size_align()` (computed by the
external `witx` crate, hence carried as data here). -/
structure ElemTy where
  isChar : Bool
  size : Nat
  align : Nat
deriving DecidableEq, Repr

/-- The shape predicates of a variant type that `VariantLift` consults
(`ty.is_bool()`, `ty.as_expected().is_some()`, `ty.as_option().is_some()`
from the external `witx` crate, carried as data), plus its case count. -/
structure VariantShape where
  ncases : Nat
  is_bool : Bool
  is_expected : Bool
  is_option : Bool
deriving DecidableEq, Repr

/-- The subset of the upstream `Instruction` stream that the claims
exercise; each constructor carries the data its `emit` arm reads. -/
inductive Instr
  | GetArg (nth : Nat)
  | S8FromI32
  | U8FromI32
  | Char8FromI32
  | S16FromI32
  | U16FromI32
  | CharFromI32
  | BitflagsFromI32 (repr : IntRepr) (name : String)
  | BitflagsFromI64 (repr : IntRepr) (name : String)
  | I32FromOwnedHandle (ty : String)
  | HandleBorrowedFromI32 (ty : String)
  | VariantLift (ty : VariantShape) (name : Option String)
  | ListCanonLower (element : ElemTy) (malloc : String)
  | ListCanonLift (element : ElemTy) (free : Option String)
  | Return (amt : Nat)
deriving DecidableEq, Repr

/-- The in-arity of each modelled instruction (declared by the upstream
signature computer; the external driver pops this many operands). -/
def inArity : Instr → Nat
  | .GetArg _ => 0
  | .S8FromI32 | .U8FromI32 | .Char8FromI32 | .S16FromI32 | .U16FromI32 => 1
  | .CharFromI32 => 1
  | .BitflagsFromI32 _ _ | .BitflagsFromI64 _ _ => 1
  | .I32FromOwnedHandle _ | .HandleBorrowedFromI32 _ => 1
  | .VariantLift _ _ => 1
  | .ListCanonLower _ _ => 1
  | .ListCanonLift _ _ => 2
  | .Return amt => amt

/-- `BTreeSet::insert` on the set-as-list model: add the element if absent.
(Iteration order of the `BTreeSet` is abstracted as insertion order; the
claims only consult membership and multiplicity.) -/
def insertSet (l : List String) (x : String) : List String :=
  if x ∈ l then l else l ++ [x]

/-- `HashMap::insert` on the map-as-association-list model: replace or
append the binding. -/
def insertMap (l : List (String × NeededFunction)) (k : String) (v : NeededFunction) :
    List (String × NeededFunction) :=
  if l.any (fun p => p.1 = k) then
    l.map (fun p => if p.1 = k then (k, v) else p)
  else l ++ [(k, v)]

/-- The mutable generator state: `struct Wasmtime` from the source (the
fields the modelled methods read or write; `opts`, `types`, `in_import`,
`in_trait` drive only out-of-scope printing). `imports` keeps
`(module, name, trait_signature, closure)` records; `exports` is flattened
to the fields map and method-body list of the single module the claims
exercise. -/
structure Wasmtime where
  tmp : Nat := 0
  src : String := ""
  needs_memory : Bool := false
  needs_guest_memory : Bool := false
  needs_get_memory : Bool := false
  needs_get_func : Bool := false
  needs_char_from_i32 : Bool := false
  needs_invalid_variant : Bool := false
  needs_validate_flags : Bool := false
  needs_store : Bool := false
  needs_load : Bool := false
  needs_bad_int : Bool := false
  needs_borrow_checker : Bool := false
  needs_slice_as_bytes : Bool := false
  needs_copy_slice : Bool := false
  needs_functions : List (String × NeededFunction) := []
  all_needed_handles : List String := []
  handles_for_func : List String := []
  params : List String := []
  block_storage : List String := []
  blocks : List String := []
  is_dtor : Bool := false
  cleanup : Option String := none
  imports : List (String × String × String × String) := []
  export_fields : List (String × String × String) := []
  export_funcs : List String := []
deriving DecidableEq, Repr

/-- `Wasmtime::new()` / `Wasmtime::default()`. -/
def Wasmtime.new : Wasmtime := {}

/-- `TypePrint::tmp` for `Wasmtime`: return the counter and increment it. -/
def Wasmtime.tmpNext (st : Wasmtime) : Nat × Wasmtime :=
  (st.tmp, { st with tmp := st.tmp + 1 })

/-- `TypePrint::push_str` for `Wasmtime`. -/
def Wasmtime.pushStr (st : Wasmtime) (s : String) : Wasmtime :=
  { st with src := st.src ++ s }

/-- `Bindgen::push_block`: save the current buffer and start a fresh one. -/
def push_block (st : Wasmtime) : Wasmtime :=
  { st with block_storage := st.src :: st.block_storage, src := "" }

/-- The `match operands.len()` of `Bindgen::finish_block`: `"()"` for no
operands, the single operand itself for one, the parenthesized
comma-joined tuple for two or more. -/
def finish_block_expr (operands : List String) : String :=
  match operands with
  | [] => "()"
  | [x] => x
  | _ => "(" ++ String.intercalate ", " operands ++ ")"

/-- The expression `finish_block` appends to `blocks`: the operand
expression alone over an empty body, the braced statement-then-expression
form otherwise. -/
def finish_block_combined (src : String) (operands : List String) : String :=
  if src = "" then finish_block_expr operands
  else "\x7b " ++ src ++ "; " ++ finish_block_expr operands ++ " \x7d"

/-- `Bindgen::finish_block`: combine the current buffer with the operand
expressions into one expression, restore the saved buffer, and append the
expression to `blocks`.  The `block_storage.pop().unwrap()` panic on an
empty stack is an `Except.error`. -/
def finish_block (operands : List String) (st : Wasmtime) : Except String Wasmtime :=
  match st.block_storage with
  | [] => .error "called Option::unwrap on a None value"
  | to_restore :: rest =>
    let pushed := finish_block_combined st.src operands
    .ok { st with block_storage := rest, src := to_restore, blocks := st.blocks ++ [pushed] }

/-- The allocator call `allocate_i64_array` appends: a guest-allocator
request for `amt * 8` bytes at alignment 8, bound to the pointer
temporary. -/
def i64_array_malloc_line (ptr : String) (amt : Nat) : String :=
  "let " ++ ptr ++ " = (&self.witx_malloc)(" ++ toString amt ++ " * 8, 8)?;\n"

/-- The cleanup fragment `allocate_i64_array` records: the matching
deallocation of exactly `amt * 8` bytes at alignment 8 at the same
pointer. -/
def i64_array_free_line (ptr : String) (amt : Nat) : String :=
  "(&self.witx_free)(" ++ ptr ++ ", " ++ toString amt ++ " * 8, 8)?;\n"

/-- `Bindgen::allocate_i64_array`: malloc `amt * 8` bytes at alignment 8
through the guest allocator, remember the matching free as the cleanup
fragment, and return the pointer temporary.  The `assert!(self.cleanup.is_none())`
is an `Except.error`. -/
def allocate_i64_array (amt : Nat) (st : Wasmtime) : Except String (Wasmtime × String) :=
  if st.cleanup.isSome then
    .error "assertion failed: self.cleanup.is_none()"
  else
    let (tmp, st) := st.tmpNext
    let nf := insertMap (insertMap st.needs_functions "witx_malloc" NeededFunction.Malloc)
      "witx_free" NeededFunction.Free
    let st := { st with needs_functions := nf }
    let ptr := "ptr" ++ toString tmp
    let st := st.pushStr (i64_array_malloc_line ptr amt)
    let st := { st with cleanup := some (i64_array_free_line ptr amt) }
    .ok (st, ptr)

/-! ### Semantics of the generated intrinsic helpers

The bodies printed by `Wasmtime::print_intrinsics` are straight-line Rust;
their behaviour is embedded here so the lowering/lifting claims can be
executed.  Guest memory is a list of byte values; `wasmtime::Trap` is the
trap's message string. -/

/-- One byte of guest memory. -/
def Byte := Nat

instance : DecidableEq Byte := fun a b => Nat.decEq a b

/-- Guest linear memory. -/
def Mem := List Nat

/-- The `store` intrinsic: `mem.write(offset, bytes)`, trapping with
`"out of bounds write"` when the range does not fit. -/
def store (mem : List Nat) (offset : Nat) (bytes : List Nat) : Except String (List Nat) :=
  if offset + bytes.length ≤ mem.length then
    .ok (mem.take offset ++ bytes ++ mem.drop (offset + bytes.length))
  else
    .error "out of bounds write"

/-- The `load` intrinsic at its use sites: read `n` bytes at `offset`
(little-endian decoding is applied by the caller-supplied `cvt`), trapping
with `"out of bounds read"` when the range does not fit. -/
def load (mem : List Nat) (offset n : Nat) : Except String (List Nat) :=
  if offset + n ≤ mem.length then
    .ok ((mem.drop offset).take n)
  else
    .error "out of bounds read"

/-- The result of the `copy_slice` intrinsic, as observable through the
returned `Vec<T>`: the bytes copied into its buffer and the value passed
to `Vec::set_len`. -/
structure RustVec where
  data : List Nat
  length : Nat
deriving DecidableEq, Repr

/-- The `copy_slice` intrinsic for an element type of byte width
`elemSize`: reads `size = len * elemSize` bytes at `base` (trapping with
`"out of bounds read"` out of range), copies them into a fresh vector of
capacity `len`, executes `result.set_len(size as usize)`, and calls the
deallocator (which, against an echoing guest, succeeds without changing
memory). -/
def copy_slice (mem : List Nat) (base len elemSize : Nat) :
    Except String RustVec :=
  let size := len * elemSize
  if base + size ≤ mem.length then
    .ok { data := (mem.drop base).take size, length := size }
  else
    .error "out of bounds read"

/-- The `char_from_i32` intrinsic's validity test, i.e.
`core::char::from_u32`: `some` exactly on Unicode scalar values. -/
def char_from_u32 (u : Nat) : Option Nat :=
  if u < 0xD800 ∨ (0xE000 ≤ u ∧ u < 0x110000) then some u else none

/-- `val as u32`: the i32 value reinterpreted as an unsigned 32-bit
integer. -/
def asU32 (val : Int) : Nat := (val % 4294967296).toNat

/-- The `char_from_i32` intrinsic: `core::char::from_u32(val as u32)` with
the trap `"char value out of valid range"` on `None`. -/
def char_from_i32 (val : Int) : Except String Nat :=
  match char_from_u32 (asU32 val) with
  | some c => .ok c
  | none => .error "char value out of valid range"

/-- All-ones 64-bit pattern. -/
def mask64 : Nat := 18446744073709551615

/-- `!all` on a 64-bit pattern: bitwise complement within 64 bits. -/
def compl64 (all : Nat) : Nat := Nat.xor mask64 all

/-- The `validate_flags` intrinsic: trap with
``"invalid flags specified for `name`"`` when `bits & !all != 0`,
otherwise `Ok(mk(bits))`.  Bit patterns are 64-bit (`i64` in the source),
taken as `Nat` patterns below `2^64`. -/
def validate_flags {α : Type} (bits all : Nat) (name : String) (mk : Nat → α) :
    Except String α :=
  if Nat.land bits (compl64 all) ≠ 0 then
    .error ("invalid flags specified for `" ++ name ++ "`")
  else
    .ok (mk bits)

/-- The trap produced by the `bad_int` intrinsic. -/
def bad_int_msg : String := "out-of-bounds integer conversion"

/-- Rust `T::try_from(v).map_err(bad_int)?` for an integer type with
inclusive range `[lo, hi]`: pass in-range values through unchanged, trap
with `bad_int` otherwise. -/
def try_from_range (lo hi v : Int) : Except String Int :=
  if lo ≤ v ∧ v ≤ hi then .ok v else .error bad_int_msg

/-- The `invalid_variant` intrinsic's trap message. -/
def invalid_variant (name : String) : String :=
  "invalid discriminant for `" ++ name ++ "`"

/-- The eight intrinsic helper bodies `print_intrinsics` can emit, in the
order their `if` blocks appear in the source. -/
inductive Intrinsic
  | store
  | load
  | char_from_i32
  | invalid_variant
  | bad_int
  | validate_flags
  | slice_as_bytes
  | copy_slice
deriving DecidableEq, Repr

/-- The fixed source order of the `if` blocks in `print_intrinsics`. -/
def intrinsicOrder : List Intrinsic :=
  [.store, .load, .char_from_i32, .invalid_variant, .bad_int,
   .validate_flags, .slice_as_bytes, .copy_slice]

/-- The demand flag guarding each intrinsic body. -/
def flagOf (st : Wasmtime) : Intrinsic → Bool
  | .store => st.needs_store
  | .load => st.needs_load
  | .char_from_i32 => st.needs_char_from_i32
  | .invalid_variant => st.needs_invalid_variant
  | .bad_int => st.needs_bad_int
  | .validate_flags => st.needs_validate_flags
  | .slice_as_bytes => st.needs_slice_as_bytes
  | .copy_slice => st.needs_copy_slice

/-- `Wasmtime::print_intrinsics`: the sequence of helper bodies appended
to the buffer, one `if needs_x { push_str(body) }` block per intrinsic in
source order. -/
def print_intrinsics (st : Wasmtime) : List Intrinsic :=
  (if st.needs_store then [Intrinsic.store] else [])
  ++ (if st.needs_load then [Intrinsic.load] else [])
  ++ (if st.needs_char_from_i32 then [Intrinsic.char_from_i32] else [])
  ++ (if st.needs_invalid_variant then [Intrinsic.invalid_variant] else [])
  ++ (if st.needs_bad_int then [Intrinsic.bad_int] else [])
  ++ (if st.needs_validate_flags then [Intrinsic.validate_flags] else [])
  ++ (if st.needs_slice_as_bytes then [Intrinsic.slice_as_bytes] else [])
  ++ (if st.needs_copy_slice then [Intrinsic.copy_slice] else [])

/-! ### The instruction transducer `Bindgen::emit` -/

/-- `n` spaces (indentation inside the multi-line `format!` literals). -/
def sp (n : Nat) : String := String.mk (List.replicate n ' ')

/-- The expression pushed by the `try_from` closure:
`{cvt}::try_from({op}).map_err(bad_int)?`. -/
def try_from_expr (cvt op : String) : String :=
  cvt ++ "::try_from(" ++ op ++ ").map_err(bad_int)?"

/-- The expression pushed by `CharFromI32`. -/
def char_from_i32_expr (op : String) : String :=
  "char_from_i32(" ++ op ++ ")?"

/-- The expression pushed by `BitflagsFromI32`/`BitflagsFromI64` (`name`
already camel-cased, `ty` the `int_repr` text). -/
def bitflags_expr (op name ty : String) : String :=
  "validate_flags(\n"
  ++ sp 24 ++ "i64::from(" ++ op ++ "),\n"
  ++ sp 24 ++ name ++ "::all().bits() as i64,\n"
  ++ sp 24 ++ "\"" ++ name ++ "\",\n"
  ++ sp 24 ++ "|b| " ++ name ++ " \x7b bits: b as " ++ ty ++ " \x7d\n"
  ++ sp 20 ++ ")?"

/-- The expression pushed by `I32FromOwnedHandle`. -/
def owned_handle_expr (snake op : String) : String :=
  "m." ++ snake ++ "_table().insert(" ++ op ++ ") as i32"

/-- The expression pushed by `HandleBorrowedFromI32` in a destructor. -/
def dtor_handle_expr (snake op : String) : String :=
  "m." ++ snake ++ "_table().remove((" ++ op ++ ") as u32).map_err(|e| \x7b\n"
  ++ sp 28 ++ "wasmtime::Trap::new(format!(\"failed to remove handle: \x7b\x7d\", e))\n"
  ++ sp 24 ++ "\x7d)?"

/-- The expression pushed by `HandleBorrowedFromI32` outside a destructor. -/
def borrow_handle_expr (snake op : String) : String :=
  snake ++ "_table_access.get((" ++ op ++ ") as u32).ok_or_else(|| \x7b\n"
  ++ sp 28 ++ "wasmtime::Trap::new(\"invalid handle index\")\n"
  ++ sp 24 ++ "\x7d)?"

/-- The `copy_slice` call expression pushed by `ListCanonLift` when a
deallocator is supplied. -/
def canon_lift_expr (free op0 op1 : String) (align : Nat) : String :=
  "\n"
  ++ sp 32 ++ "unsafe \x7b\n"
  ++ sp 36 ++ "copy_slice(\n"
  ++ sp 40 ++ "memory,\n"
  ++ sp 40 ++ "func_" ++ free ++ ",\n"
  ++ sp 40 ++ op0 ++ ", " ++ op1 ++ ", " ++ toString align ++ "\n"
  ++ sp 36 ++ ")?\n"
  ++ sp 32 ++ "\x7d\n"
  ++ sp 28

/-- The UTF-8 wrapper around `canon_lift_expr` for `char` elements. -/
def stringify_expr (inner : String) : String :=
  "String::from_utf8(" ++ inner ++ ")\n"
  ++ sp 36 ++ ".map_err(|_| wasmtime::Trap::new(\"invalid utf-8\"))?"

/-- The guest-pointer expression pushed by `ListCanonLift` when no
deallocator is supplied. -/
def guest_ptr_expr (op0 op1 : String) : String :=
  "\n"
  ++ sp 32 ++ "unsafe \x7b\n"
  ++ sp 36 ++ "witx_bindgen_wasmtime::GuestPtr::new(\n"
  ++ sp 40 ++ "&guest_memory,\n"
  ++ sp 40 ++ "((" ++ op0 ++ ") as u32, (" ++ op1 ++ ") as u32),\n"
  ++ sp 36 ++ ")\n"
  ++ sp 32 ++ "\x7d\n"
  ++ sp 28

/-- Modelled from the spec: `TypePrint::variant_lift_case` (external
`witx-bindgen-gen-rust` type printer): the text of one match arm's
right-hand side, dispatching to the case's block. -/
def variant_lift_case (block : String) : String := block

/-- The fallback type name printed into the `invalid_variant` arm of
`VariantLift` (source lines 998-1008): the camel-cased supplied name when
there is one, else `bool`/`Result`/`Option` by shape, else the
`unimplemented!()` panic. -/
def variant_name (name : Option String) (ty : VariantShape) : Except String String :=
  match name with
  | some s => .ok (to_camel_case s)
  | none =>
    if ty.is_bool then .ok "bool"
    else if ty.is_expected then .ok "Result"
    else if ty.is_option then .ok "Option"
    else .error "not implemented"

/-- The match expression pushed by `VariantLift`: one arm per case text
in `arms`, then the `invalid_variant` otherwise-arm naming `vname`. -/
def variant_lift_text (op arms vname : String) : String :=
  "match " ++ op ++ " \x7b\n" ++ arms
  ++ "_ => return Err(invalid_variant(\"" ++ vname ++ "\")),\n\x7d"

/-- `Bindgen::emit` on the modelled instruction subset.  Takes the
instruction's operand expressions (popped for it by the external driver)
and returns the updated state and the pushed result expressions; a
generator panic is `Except.error`. -/
def emit (inst : Instr) (operands : List String) (st : Wasmtime) :
    Except String (Wasmtime × List String) :=
  match inst, operands with
  | .GetArg nth, _ =>
    match st.params.get? nth with
    | some p => .ok (st, [p])
    | none => .error "index out of bounds"
  | .S8FromI32, op :: _ =>
    .ok ({ st with needs_bad_int := true }, [try_from_expr "i8" op])
  | .Char8FromI32, op :: _ =>
    .ok ({ st with needs_bad_int := true }, [try_from_expr "u8" op])
  | .U8FromI32, op :: _ =>
    .ok ({ st with needs_bad_int := true }, [try_from_expr "u8" op])
  | .S16FromI32, op :: _ =>
    .ok ({ st with needs_bad_int := true }, [try_from_expr "i16" op])
  | .U16FromI32, op :: _ =>
    .ok ({ st with needs_bad_int := true }, [try_from_expr "u16" op])
  | .CharFromI32, op :: _ =>
    .ok ({ st with needs_char_from_i32 := true }, [char_from_i32_expr op])
  | .BitflagsFromI32 repr name, op :: _ =>
    .ok ({ st with needs_validate_flags := true },
      [bitflags_expr op (to_camel_case name) (int_repr repr)])
  | .BitflagsFromI64 repr name, op :: _ =>
    .ok ({ st with needs_validate_flags := true },
      [bitflags_expr op (to_camel_case name) (int_repr repr)])
  | .I32FromOwnedHandle ty, op :: _ =>
    .ok ({ st with all_needed_handles := insertSet st.all_needed_handles ty },
      [owned_handle_expr (to_snake_case ty) op])
  | .HandleBorrowedFromI32 ty, op :: _ =>
    if st.is_dtor then
      .ok ({ st with all_needed_handles := insertSet st.all_needed_handles ty },
        [dtor_handle_expr (to_snake_case ty) op])
    else
      .ok ({ st with handles_for_func := insertSet st.handles_for_func ty },
        [borrow_handle_expr (to_snake_case ty) op])
  | .VariantLift ty name, op :: _ =>
    if ty.ncases ≤ st.blocks.length then
      let blocks := st.blocks.drop (st.blocks.length - ty.ncases)
      let kept := st.blocks.take (st.blocks.length - ty.ncases)
      let arms := String.join ((List.zip (List.range ty.ncases) blocks).map
        (fun p => toString p.1 ++ " => " ++ variant_lift_case p.2 ++ ",\n"))
      match variant_name name ty with
      | .error e => .error e
      | .ok vname =>
        .ok ({ st with blocks := kept, needs_invalid_variant := true },
          [variant_lift_text op arms vname])
    else
      .error "attempt to subtract with overflow"
  | .ListCanonLower element malloc, op :: _ =>
    let st := { st with needs_functions :=
                  insertMap st.needs_functions malloc NeededFunction.Malloc }
    let size := if element.isChar then 1 else element.size
    let align := if element.isChar then 1 else element.align
    let (tmp, st) := st.tmpNext
    let val := "vec" ++ toString tmp
    let st := st.pushStr ("let " ++ val ++ " = " ++ op ++ ";\n")
    let ptr := "ptr" ++ toString tmp
    let st := st.pushStr ("let " ++ ptr ++ " = func_" ++ malloc ++ "((" ++ val
      ++ ".len() as i32) * " ++ toString size ++ ", " ++ toString align ++ ")?;\n")
    let st := st.pushStr ("store(memory, " ++ ptr ++ ", unsafe \x7b slice_as_bytes("
      ++ val ++ ".as_ref()) \x7d)?;\n")
    let st := { st with needs_store := true, needs_memory := true,
                        needs_slice_as_bytes := true }
    .ok (st, [ptr, val ++ ".len() as i32"])
  | .ListCanonLift element free, op0 :: op1 :: _ =>
    match free with
    | some f =>
      let st := { st with needs_memory := true, needs_copy_slice := true }
      let st := { st with needs_functions :=
                    insertMap st.needs_functions f NeededFunction.Free }
      let stringify := element.isChar
      let align := if element.isChar then 1 else element.align
      let result := canon_lift_expr f op0 op1 align
      if stringify then
        .ok (st, [stringify_expr result])
      else
        .ok (st, [result])
    | none =>
      let st := { st with needs_guest_memory := true }
      .ok (st, [guest_ptr_expr op0 op1])
  | .Return amt, _ =>
    if amt = 1 ∧ operands = [] then .error "index out of bounds" else
    let result :=
      match amt, operands with
      | 0, _ => "Ok(())"
      | 1, op :: _ => "Ok(" ++ op ++ ")"
      | _, _ => "Ok((" ++ String.intercalate ", " operands ++ "))"
    match st.cleanup with
    | some cleanup =>
      let st := st.pushStr ("let ret = " ++ result ++ ";\n")
      let st := st.pushStr cleanup
      let st := st.pushStr "ret"
      .ok ({ st with cleanup := none }, [])
    | none => .ok (st.pushStr result, [])
  | _, [] => .error "index out of bounds"
  | .ListCanonLift _ _, [_] => .error "index out of bounds"

/-! ### The import and export framers -/

/-- `NeededFunction::cvt`. -/
def NeededFunction.cvt : NeededFunction → String
  | .Malloc => "2::<i32, i32, i32>"
  | .Free => "3::<i32, i32, i32, ()>"

/-- `NeededFunction::ty`. -/
def NeededFunction.ty : NeededFunction → String
  | .Malloc => "Box<dyn Fn(i32, i32) -> Result<i32, wasmtime::Trap>>"
  | .Free => "Box<dyn Fn(i32, i32, i32) -> Result<(), wasmtime::Trap>>"

/-- One interface function as the framers consume it.  `instrs` is the
canonical instruction stream computed by the external signature computer;
`is_dtor` is `types.is_dtor_func(name)`; the `*_text` fields and
`rust_params` stand for output of the external type printer
(`print_signature`, `print_docs_and_params`, `print_results`). -/
structure FuncDesc where
  name : String
  is_dtor : Bool := false
  wasm_params : List WasmType := []
  wasm_results : List WasmType := []
  instrs : List Instr := []
  trait_signature : String := ""
  sig_text : String := ""
  results_text : String := ""
  rust_params : List String := []
deriving DecidableEq, Repr

/-- The external driver (`func.call` from the `witx` crate): maintain the
operand stack, hand each instruction its declared operand arity, push its
results. -/
def runInstrs : List Instr → List String → Wasmtime → Except String (Wasmtime × List String)
  | [], stack, st => .ok (st, stack)
  | i :: rest, stack, st =>
    let k := inArity i
    if k ≤ stack.length then
      match emit i (stack.take k) st with
      | .error e => .error e
      | .ok (st', res) => runInstrs rest (res ++ stack.drop k) st'
    else .error "operand stack underflow"

/-- The guest-memory prologue inserted when `needs_guest_memory` is set. -/
def guest_memory_text : String :=
  "let guest_memory = unsafe \x7b witx_bindgen_wasmtime::WasmtimeGuestMemory::new(\n"
  ++ sp 20 ++ "memory,\n"
  ++ sp 20 ++ "m.borrow_checker(),\n"
  ++ sp 16 ++ ") \x7d;\n"

/-- The memory prologue inserted when memory was touched (import side). -/
def get_memory_text : String :=
  "let memory = &get_memory(&_caller, \"memory\")?;\n"

/-- The per-handle table-access prologue line. -/
def handle_access_text (handle : String) : String :=
  "let " ++ to_snake_case handle ++ "_table_access = m."
  ++ to_snake_case handle ++ "_table().access();\n"

/-- The per-needed-guest-function prologue lines (import side). -/
def func_get_text (name : String) (f : NeededFunction) : String :=
  "\n"
  ++ sp 24 ++ "let func = get_func(&_caller, \"" ++ name ++ "\")?;\n"
  ++ sp 24 ++ "let func_" ++ name ++ " = func.get" ++ f.cvt ++ "()?;\n"
  ++ sp 20

/-- `Generator::import`.  The body is generated into a separate buffer and
the checkpoint-anchored `insert_str` calls are modelled by the
concatenation `header ++ funcLines ++ handleLines ++ memLine ++ guestLine
++ body` (each later `insert_str` at the same checkpoint lands before the
earlier ones, hence the reversals).  The trailing
`assert!(self.cleanup.is_none())` is an `Except.error`. -/
def Generator.import (module : String) (f : FuncDesc) (st : Wasmtime) :
    Except String Wasmtime :=
  let prev := st.src
  let st := { st with src := "", is_dtor := f.is_dtor }
  let trait_signature := f.trait_signature
  let args := (List.range f.wasm_params.length).map (fun i => "arg" ++ toString i)
  let header := "move |_caller: wasmtime::Caller<\x27_>"
    ++ String.join ((List.zip args f.wasm_params).map
        (fun p => "," ++ p.1 ++ ":" ++ wasm_type p.2))
    ++ "| -> Result<_, wasmtime::Trap> \x7b\n"
  let st := { st with params := args, src := "" }
  match runInstrs f.instrs [] st with
  | .error e => .error e
  | .ok (st, _stack) =>
    let body := st.src
    let guestLine := if st.needs_guest_memory then guest_memory_text else ""
    let memLine := if st.needs_memory || st.needs_guest_memory then get_memory_text else ""
    let handleLines := String.join (st.handles_for_func.reverse.map handle_access_text)
    let funcLines := String.join (st.needs_functions.reverse.map
        (fun p => func_get_text p.1 p.2))
    let closure := header ++ funcLines ++ handleLines ++ memLine ++ guestLine
      ++ body ++ "\x7d"
    let st2 : Wasmtime := { st with
      needs_borrow_checker := st.needs_borrow_checker || st.needs_guest_memory,
      needs_get_memory := st.needs_get_memory || (st.needs_memory || st.needs_guest_memory),
      needs_memory := false,
      needs_guest_memory := false,
      all_needed_handles := st.handles_for_func.foldl insertSet st.all_needed_handles,
      handles_for_func := [],
      needs_get_func := st.needs_get_func || decide (st.needs_functions ≠ []),
      needs_functions := [],
      src := prev,
      imports := st.imports ++ [(module, f.name, trait_signature, closure)] }
    if st2.cleanup.isNone then .ok st2
    else .error "assertion failed: self.cleanup.is_none()"

/-- `BTreeMap::insert` on the export-fields model: replace or append. -/
def insertField (l : List (String × String × String)) (k ty get : String) :
    List (String × String × String) :=
  if l.any (fun p => p.1 = k) then
    l.map (fun p => if p.1 = k then (k, ty, get) else p)
  else l ++ [(k, ty, get)]

/-- `Generator::export`.  The two `assert!`s (no guest memory, no
per-function handles on the export side) and the
`assert!(sig.results.len() < 2)` are `Except.error`s; the module-level
`Exports` record is flattened into `export_fields`/`export_funcs`. -/
def Generator.export (_module : String) (f : FuncDesc) (st : Wasmtime) :
    Except String Wasmtime :=
  let prev := st.src
  let st := { st with src := "", is_dtor := f.is_dtor }
  let st := { st with params := f.rust_params }
  let header := f.sig_text ++ "-> Result<" ++ f.results_text ++ ", wasmtime::Trap> \x7b\n"
  let st := { st with src := "" }
  match runInstrs f.instrs [] st with
  | .error e => .error e
  | .ok (st, _stack) =>
    let body := st.src
    if st.needs_guest_memory then .error "assertion failed: !self.needs_guest_memory" else
    let memLine := if st.needs_memory then "let memory = &self.memory;\n" else ""
    let memFields :=
      if st.needs_memory then
        insertField st.export_fields "memory" "wasmtime::Memory" "get_memory(\"memory\")?"
      else st.export_fields
    if st.handles_for_func ≠ [] then
      .error "assertion failed: self.handles_for_func.len() == 0" else
    let funcLines := String.join (st.needs_functions.reverse.map
        (fun p => "let func_" ++ p.1 ++ " = &self." ++ p.1 ++ ";\n"))
    let fields := st.needs_functions.foldl (fun acc p =>
        insertField acc p.1 p.2.ty
          ("Box::new(get_func(\"" ++ p.1 ++ "\")?.get" ++ p.2.cvt ++ "()?)"))
      memFields
    let method := header ++ funcLines ++ memLine ++ body ++ "\x7d"
    if 2 ≤ f.wasm_results.length then
      .error "assertion failed: sig.results.len() < 2" else
    let res_text := match f.wasm_results with
      | [] => "()"
      | t :: _ => wasm_type t
    let cvt := toString f.wasm_params.length ++ "::<"
      ++ String.join (f.wasm_params.map (fun p => wasm_type p ++ ","))
      ++ res_text ++ ">"
    let ty := "Box<dyn Fn("
      ++ String.join (f.wasm_params.map (fun p => wasm_type p ++ ","))
      ++ ") -> Result<" ++ res_text ++ ", wasmtime::Trap>>"
    let getter := "Box::new(get_func(\"" ++ f.name ++ "\")?.get" ++ cvt ++ "()?)"
    .ok { st with
      needs_memory := false,
      needs_get_memory := st.needs_get_memory || st.needs_memory,
      export_fields := insertField fields f.name ty getter,
      needs_get_func := true,
      needs_functions := [],
      export_funcs := st.export_funcs ++ [method],
      src := prev }

/-- One call of a per-function entry point: `true` drives
`Generator::import`, `false` drives `Generator::export`. -/
def runEntry (isImport : Bool) (module : String) (f : FuncDesc) (st : Wasmtime) :
    Except String Wasmtime :=
  if isImport then Generator.import module f st else Generator.export module f st

/-- A whole generation run over a list of interface functions. -/
def processAll : List (Bool × String × FuncDesc) → Wasmtime → Except String Wasmtime
  | [], st => .ok st
  | e :: rest, st =>
    match runEntry e.1 e.2.1 e.2.2 st with
    | .error msg => .error msg
    | .ok st' => processAll rest st'

/-! ### The glue-trait section of `Generator::finish` -/

/-- The associated-type line printed for one handle in the `Glue` trait. -/
def glue_assoc_type (h : String) : String :=
  "type " ++ to_camel_case h ++ ";\n"

/-- The table-accessor line printed for one handle in the `Glue` trait. -/
def glue_table_accessor (h : String) : String :=
  "fn " ++ to_snake_case h
  ++ "_table(&self) -> &witx_bindgen_wasmtime::Table<Self::"
  ++ to_camel_case h ++ ">;\n"

/-- The per-handle items of the `Glue` trait emitted by
`Generator::finish`: one associated type and one table accessor for each
element of `all_needed_handles`, in set-iteration order. -/
def finish_glue (st : Wasmtime) : List (String × String) :=
  st.all_needed_handles.map (fun h => (glue_assoc_type h, glue_table_accessor h))

/-- The handle types a single instruction records as touched
(`I32FromOwnedHandle` and both sub-modes of `HandleBorrowedFromI32`). -/
def touchedHandles : Instr → List String
  | .I32FromOwnedHandle ty => [ty]
  | .HandleBorrowedFromI32 ty => [ty]
  | _ => []

/-- The handle types touched anywhere in an instruction stream. -/
def touchedInstrs (l : List Instr) : List String :=
  l.flatMap touchedHandles

/-- The handle types touched anywhere in a generation run. -/
def touchedAll (entries : List (Bool × String × FuncDesc)) : List String :=
  entries.flatMap (fun e => touchedInstrs e.2.2.instrs)

/-! ### Executing the canonical-list round trip -/

/-- Little-endian byte view of a host `u8` element. -/
def encU8 (b : Nat) : List Nat := [b]

/-- Little-endian byte view of a host `i32` element (its `as u32` bit
pattern, four bytes). -/
def encI32 (x : Int) : List Nat :=
  let n := asU32 x
  [n % 256, n / 256 % 256, n / 65536 % 256, n / 16777216 % 256]

/-- Little-endian byte view of a host `f64` element, given as its 64-bit
pattern (the canonical lowering moves bits, never arithmetic). -/
def encF64 (bits : Nat) : List Nat :=
  [bits % 256, bits / 2 ^ 8 % 256, bits / 2 ^ 16 % 256, bits / 2 ^ 24 % 256,
   bits / 2 ^ 32 % 256, bits / 2 ^ 40 % 256, bits / 2 ^ 48 % 256, bits / 2 ^ 56 % 256]

/-- The generated `ListCanonLower`-then-`ListCanonLift` sequence executed
against a guest that merely echoes memory: the allocator hands out a fresh
region of the requested `len * elemSize` bytes (placed at address 0),
`store` writes the host byte view into it, `copy_slice` reads the region
back into the lifted vector and the deallocator succeeds without touching
memory. -/
def listCanonRoundTrip (elemSize : Nat) (valBytes : List Nat) (len : Nat) :
    Except String RustVec :=
  match store (List.replicate (len * elemSize) 0) 0 valBytes with
  | .error e => .error e
  | .ok mem => copy_slice mem 0 len elemSize

/-- The round trip for a host `Vec<u8>`. -/
def roundTripU8 (l : List Nat) : Except String RustVec :=
  listCanonRoundTrip 1 (l.flatMap encU8) l.length

/-- The round trip for a host `Vec<i32>`. -/
def roundTripI32 (l : List Int) : Except String RustVec :=
  listCanonRoundTrip 4 (l.flatMap encI32) l.length

/-! ### Theorems -/

theorem mem_ite_singleton {α : Type} (b : Bool) (x y : α) :
    (x ∈ (if b = true then [y] else [])) ↔ (b = true ∧ x = y) := by
  cases b <;> simp

/-- C4: every transduction of `S8FromI32`, `U8FromI32`, `Char8FromI32`,
`S16FromI32`, `U16FromI32` emits the checked narrowing conversion
`{cvt}::try_from({op}).map_err(bad_int)?` and sets `needs_bad_int`; the
conversion passes in-range i32 values through unchanged and fails with the
bad-int trap (message "out-of-bounds integer conversion") exactly when the
operand value is outside the destination type's range. -/
theorem claim_C4_narrow_try_from (inst : Instr) (cvt : String) (lo hi : Int)
    (hmem : (inst, cvt, lo, hi) ∈
      [(Instr.S8FromI32, "i8", (-128 : Int), (127 : Int)),
       (Instr.U8FromI32, "u8", 0, 255),
       (Instr.Char8FromI32, "u8", 0, 255),
       (Instr.S16FromI32, "i16", -32768, 32767),
       (Instr.U16FromI32, "u16", 0, 65535)])
    (op : String) (st : Wasmtime) (v : Int) :
    emit inst [op] st = .ok ({ st with needs_bad_int := true }, [try_from_expr cvt op])
    ∧ (lo ≤ v → v ≤ hi → try_from_range lo hi v = .ok v)
    ∧ (v < lo ∨ hi < v → try_from_range lo hi v = .error bad_int_msg) := by
  have hsem : (lo ≤ v → v ≤ hi → try_from_range lo hi v = .ok v)
      ∧ (v < lo ∨ hi < v → try_from_range lo hi v = .error bad_int_msg) := by
    constructor
    · intro h1 h2
      simp [try_from_range, h1, h2]
    · intro h
      have hn : ¬ (lo ≤ v ∧ v ≤ hi) := by omega
      simp [try_from_range, hn]
  simp only [List.mem_cons, List.not_mem_nil, or_false, Prod.mk.injEq] at hmem
  rcases hmem with ⟨rfl, rfl, rfl, rfl⟩ | ⟨rfl, rfl, rfl, rfl⟩ | ⟨rfl, rfl, rfl, rfl⟩
    | ⟨rfl, rfl, rfl, rfl⟩ | ⟨rfl, rfl, rfl, rfl⟩ <;>
    exact ⟨rfl, hsem⟩

theorem claim_C4_witness :
    emit Instr.S8FromI32 ["arg0"] Wasmtime.new
      = .ok ({ Wasmtime.new with needs_bad_int := true }, [try_from_expr "i8" "arg0"])
    ∧ try_from_range (-128) 127 200 = .error bad_int_msg
    ∧ try_from_range (-128) 127 100 = .ok 100 := by
  have h := claim_C4_narrow_try_from Instr.S8FromI32 "i8" (-128) 127 (by decide)
    "arg0" Wasmtime.new 200
  have h2 := claim_C4_narrow_try_from Instr.S8FromI32 "i8" (-128) 127 (by decide)
    "arg0" Wasmtime.new 100
  exact ⟨h.1, h.2.2 (by decide), h2.2.1 (by decide) (by decide)⟩

/-- C5: `validate_flags(bits, all, name, mk)` traps with
"invalid flags specified for \`name\`" iff `bits & !all != 0` and returns
`Ok(mk(bits))` otherwise; both `BitflagsFromI32` and `BitflagsFromI64`
route the operand through `validate_flags` against the named type's
all-mask and set `needs_validate_flags`. -/
theorem claim_C5_validate_flags_and_routing {α : Type} (bits all : Nat) (name : String)
    (mk : Nat → α) (repr : IntRepr) (tyname op : String) (st : Wasmtime) :
    (validate_flags bits all name mk
        = .error ("invalid flags specified for `" ++ name ++ "`")
      ↔ Nat.land bits (compl64 all) ≠ 0)
    ∧ (Nat.land bits (compl64 all) = 0 → validate_flags bits all name mk = .ok (mk bits))
    ∧ emit (Instr.BitflagsFromI32 repr tyname) [op] st
        = .ok ({ st with needs_validate_flags := true },
            [bitflags_expr op (to_camel_case tyname) (int_repr repr)])
    ∧ emit (Instr.BitflagsFromI64 repr tyname) [op] st
        = .ok ({ st with needs_validate_flags := true },
            [bitflags_expr op (to_camel_case tyname) (int_repr repr)]) := by
  refine ⟨?_, ?_, rfl, rfl⟩
  · constructor
    · intro h
      by_cases hz : Nat.land bits (compl64 all) = 0
      · simp [validate_flags, hz] at h
      · exact hz
    · intro hz
      simp [validate_flags, hz]
  · intro hz
    simp [validate_flags, hz]

theorem claim_C5_witness :
    validate_flags 4 3 "Perms" (fun b => b) = .error "invalid flags specified for `Perms`"
    ∧ validate_flags 3 3 "Perms" (fun b => b) = .ok 3
    ∧ emit (Instr.BitflagsFromI32 IntRepr.u32 "perms") ["arg0"] Wasmtime.new
        = .ok ({ Wasmtime.new with needs_validate_flags := true },
            [bitflags_expr "arg0" (to_camel_case "perms") (int_repr IntRepr.u32)]) := by
  have h := claim_C5_validate_flags_and_routing 4 3 "Perms" (fun b => b)
    IntRepr.u32 "perms" "arg0" Wasmtime.new
  have h2 := claim_C5_validate_flags_and_routing 3 3 "Perms" (fun b => b)
    IntRepr.u32 "perms" "arg0" Wasmtime.new
  exact ⟨h.1.mpr (by decide), h2.2.1 (by decide), h.2.2.1⟩

/-- C6: `char_from_i32` returns `Ok` of the u32 reinterpretation of its
operand exactly when that value is a Unicode scalar, and traps with
"char value out of valid range" exactly when it lies in the surrogate
range `0xD800..=0xDFFF` or is `>= 0x110000`; every negative i32 operand
traps; `CharFromI32` routes through the helper and sets
`needs_char_from_i32`. -/
theorem claim_C6_char_from_i32_valid (v : Int) (op : String) (st : Wasmtime) :
    (char_from_i32 v = .ok (asU32 v)
      ↔ (asU32 v < 55296 ∨ (57344 ≤ asU32 v ∧ asU32 v < 1114112)))
    ∧ (char_from_i32 v = .error "char value out of valid range"
      ↔ ((55296 ≤ asU32 v ∧ asU32 v ≤ 57343) ∨ 1114112 ≤ asU32 v))
    ∧ (-2147483648 ≤ v → v < 0 →
        char_from_i32 v = .error "char value out of valid range")
    ∧ emit Instr.CharFromI32 [op] st
      = .ok ({ st with needs_char_from_i32 := true }, [char_from_i32_expr op]) := by
  have hiff2 : char_from_i32 v = .error "char value out of valid range"
      ↔ ((55296 ≤ asU32 v ∧ asU32 v ≤ 57343) ∨ 1114112 ≤ asU32 v) := by
    by_cases hc : asU32 v < 55296 ∨ (57344 ≤ asU32 v ∧ asU32 v < 1114112)
    · simp only [char_from_i32, char_from_u32, if_pos hc]
      constructor
      · intro h
        exact absurd h (by simp)
      · intro h
        omega
    · simp only [char_from_i32, char_from_u32, if_neg hc]
      constructor
      · intro _
        omega
      · intro _
        trivial
  refine ⟨?_, hiff2, ?_, rfl⟩
  · by_cases hc : asU32 v < 55296 ∨ (57344 ≤ asU32 v ∧ asU32 v < 1114112)
    · simp only [char_from_i32, char_from_u32, if_pos hc]
      simpa using hc
    · simp only [char_from_i32, char_from_u32, if_neg hc]
      constructor
      · intro h
        exact absurd h (by simp)
      · intro h
        exact absurd h hc
  · intro h1 h2
    apply hiff2.mpr
    right
    unfold asU32
    omega

theorem claim_C6_witness :
    char_from_i32 97 = .ok 97
    ∧ char_from_i32 55296 = .error "char value out of valid range"
    ∧ char_from_i32 (-1) = .error "char value out of valid range"
    ∧ emit Instr.CharFromI32 ["arg0"] Wasmtime.new
        = .ok ({ Wasmtime.new with needs_char_from_i32 := true },
            [char_from_i32_expr "arg0"]) := by
  have h1 := claim_C6_char_from_i32_valid 97 "arg0" Wasmtime.new
  have h2 := claim_C6_char_from_i32_valid 55296 "arg0" Wasmtime.new
  have h3 := claim_C6_char_from_i32_valid (-1) "arg0" Wasmtime.new
  refine ⟨?_, h2.2.1.mpr (by decide), h3.2.2.1 (by decide) (by decide), h1.2.2.2⟩
  have := h1.1.mpr (by decide)
  simpa [asU32] using this

/-- C8: every `finish_block` against a matching `push_block` combines the
operands into `"()"` (no operands), the single operand (one), or the
parenthesized comma-joined tuple (two or more); a non-empty body wraps the
expression in braces as statement-then-expression; the saved buffer is
restored as current and the expression is appended to the block-results
list. -/
theorem claim_C8_finish_block (st : Wasmtime) (saved : String) (rest ops : List String)
    (h : st.block_storage = saved :: rest) :
    finish_block ops st
      = .ok { st with
          block_storage := rest,
          src := saved,
          blocks := st.blocks ++ [finish_block_combined st.src ops] }
    ∧ finish_block_expr [] = "()"
    ∧ (∀ x, finish_block_expr [x] = x)
    ∧ (∀ x y more, finish_block_expr (x :: y :: more)
        = "(" ++ String.intercalate ", " (x :: y :: more) ++ ")")
    ∧ (st.src = "" → finish_block_combined st.src ops = finish_block_expr ops)
    ∧ (st.src ≠ "" → finish_block_combined st.src ops
        = "\x7b " ++ st.src ++ "; " ++ finish_block_expr ops ++ " \x7d") := by
  refine ⟨?_, rfl, fun x => rfl, fun x y more => rfl, ?_, ?_⟩
  · simp only [finish_block, h]
  · intro hs
    simp [finish_block_combined, hs]
  · intro hs
    simp [finish_block_combined, hs]

theorem claim_C8_witness :
    finish_block ["a", "b"] { Wasmtime.new with block_storage := ["SAVED"], src := "s" }
      = .ok { Wasmtime.new with
          block_storage := [],
          src := "SAVED",
          blocks := [finish_block_combined "s" ["a", "b"]] } := by
  have h := claim_C8_finish_block
    { Wasmtime.new with block_storage := ["SAVED"], src := "s" } "SAVED" [] ["a", "b"] rfl
  simpa using h.1

/-- C9: an intrinsic helper body appears in the `print_intrinsics` output
at finalization iff its demand flag is set, and the emitted bodies appear
in the fixed source order (the output is exactly the fixed order filtered
by the flags) — no unused intrinsic body is emitted. -/
theorem claim_C9_intrinsics_on_demand (st : Wasmtime) (i : Intrinsic) :
    (i ∈ print_intrinsics st ↔ flagOf st i = true)
    ∧ print_intrinsics st = intrinsicOrder.filter (fun j => flagOf st j) := by
  constructor
  · simp only [print_intrinsics, List.mem_append, mem_ite_singleton]
    cases i <;> simp [flagOf]
  · rcases st with ⟨t, s, a1, a2, a3, a4, nchar, ninv, nvf, nstore, nload, nbad,
      a5, nsab, ncs, r1, r2, r3, r4, r5, r6, r7, r8, r9, r10, r11⟩
    cases nchar <;> cases ninv <;> cases nvf <;> cases nstore <;> cases nload <;>
      cases nbad <;> cases nsab <;> cases ncs <;> rfl

/-- C10: during `VariantLift`, a missing type name for a variant that is
not boolean, not result-like and not option-like makes the generator
itself fail (the `unimplemented!()` panic) instead of emitting code; on
every successful transduction the otherwise-arm's type name is a supplied
name's camel-case form, "bool", "Result", or "Option". -/
theorem claim_C10_variant_lift_fallback (ty : VariantShape) (name : Option String)
    (op : String) (st : Wasmtime) (hb : ty.ncases ≤ st.blocks.length) :
    (name = none → ty.is_bool = false → ty.is_expected = false → ty.is_option = false →
      emit (Instr.VariantLift ty name) [op] st = .error "not implemented")
    ∧ (∀ st' res, emit (Instr.VariantLift ty name) [op] st = .ok (st', res) →
        ∃ arms vname, res = [variant_lift_text op arms vname]
          ∧ ((∃ s, name = some s ∧ vname = to_camel_case s)
             ∨ vname = "bool" ∨ vname = "Result" ∨ vname = "Option")) := by
  constructor
  · intro hn h1 h2 h3
    subst hn
    simp only [emit, if_pos hb, variant_name, h1, h2, h3, Bool.false_eq_true,
      if_false]
  · intro st' res h
    simp only [emit, if_pos hb] at h
    rcases hv : variant_name name ty with e | vname
    · rw [hv] at h
      exact absurd h (by simp)
    · rw [hv] at h
      injection h with h2
      refine ⟨_, vname, (congrArg Prod.snd h2).symm, ?_⟩
      rcases name with _ | s
      · unfold variant_name at hv
        by_cases b1 : ty.is_bool
        · simp [b1] at hv
          exact Or.inr (Or.inl hv.symm)
        · by_cases b2 : ty.is_expected
          · simp [b1, b2] at hv
            exact Or.inr (Or.inr (Or.inl hv.symm))
          · by_cases b3 : ty.is_option
            · simp [b1, b2, b3] at hv
              exact Or.inr (Or.inr (Or.inr hv.symm))
            · simp [b1, b2, b3] at hv
      · refine Or.inl ⟨s, rfl, ?_⟩
        unfold variant_name at hv
        simpa using hv.symm

theorem claim_C10_witness :
    emit (Instr.VariantLift ⟨0, false, false, false⟩ none) ["arg0"] Wasmtime.new
      = .error "not implemented" :=
  (claim_C10_variant_lift_fallback ⟨0, false, false, false⟩ none "arg0" Wasmtime.new
    (by decide)).1 rfl rfl rfl rfl

/-- C7: `allocate_i64_array(amt)` emits the guest-allocator call for
`amt * 8` bytes at alignment 8, returns the pointer temporary, and
records the matching deallocation of exactly those bytes as the cleanup
fragment; a subsequent `Return` with the fragment pending binds the Ok
result to `ret`, emits the cleanup exactly once, yields `ret`, and
consumes the fragment (cleanup is `none` afterwards). -/
theorem claim_C7_alloc_cleanup_return (amt : Nat) (op : String) (st : Wasmtime)
    (h : st.cleanup = none) :
    ∃ st1, allocate_i64_array amt st = .ok (st1, "ptr" ++ toString st.tmp)
      ∧ st1.src = st.src ++ i64_array_malloc_line ("ptr" ++ toString st.tmp) amt
      ∧ st1.cleanup = some (i64_array_free_line ("ptr" ++ toString st.tmp) amt)
      ∧ ∃ st2, emit (Instr.Return 1) [op] st1 = .ok (st2, [])
        ∧ st2.src = st1.src ++ ("let ret = " ++ ("Ok(" ++ op ++ ")") ++ ";\n")
            ++ i64_array_free_line ("ptr" ++ toString st.tmp) amt ++ "ret"
        ∧ st2.cleanup = none := by
  rcases st with ⟨t, s, b3, b4, b5, b6, b7, b8, b9, b10, b11, b12, b13, b14, b15,
    b16, b17, b18, b19, b20, b21, b22, cl, b24, b25, b26⟩
  cases h
  exact ⟨_, rfl, rfl, rfl, _, rfl, rfl, rfl⟩

theorem claim_C7_witness :
    Wasmtime.new.cleanup = none
    ∧ ∃ st1, allocate_i64_array 8 Wasmtime.new = .ok (st1, "ptr" ++ toString Wasmtime.new.tmp)
      ∧ st1.src = Wasmtime.new.src ++ i64_array_malloc_line ("ptr" ++ toString Wasmtime.new.tmp) 8
      ∧ st1.cleanup = some (i64_array_free_line ("ptr" ++ toString Wasmtime.new.tmp) 8)
      ∧ ∃ st2, emit (Instr.Return 1) ["a"] st1 = .ok (st2, [])
        ∧ st2.src = st1.src ++ ("let ret = " ++ ("Ok(" ++ "a" ++ ")") ++ ";\n")
            ++ i64_array_free_line ("ptr" ++ toString Wasmtime.new.tmp) 8 ++ "ret"
        ∧ st2.cleanup = none :=
  ⟨rfl, claim_C7_alloc_cleanup_return 8 "a" Wasmtime.new rfl⟩

/-! ### State invariants of the transducer (for the counter and handle claims) -/

/-- How many temporaries (`tmp()` calls) each modelled instruction's arm
consumes. -/
def tmpUses : Instr → Nat
  | .ListCanonLower _ _ => 1
  | _ => 0

/-- Temporaries consumed by a whole instruction stream. -/
def tmpCount (l : List Instr) : Nat := (l.map tmpUses).sum

theorem mem_insertSet {l : List String} {x y : String} :
    y ∈ insertSet l x ↔ y ∈ l ∨ y = x := by
  by_cases hx : x ∈ l
  · simp only [insertSet, if_pos hx]
    constructor
    · exact Or.inl
    · rintro (h | rfl)
      · exact h
      · exact hx
  · simp [insertSet, if_neg hx]

theorem nodup_insertSet {l : List String} {x : String} (h : l.Nodup) :
    (insertSet l x).Nodup := by
  by_cases hx : x ∈ l
  · simpa [insertSet, hx] using h
  · simp [insertSet, hx, List.nodup_append, h]

theorem mem_foldl_insertSet (hs : List String) : ∀ (l : List String) (y : String),
    y ∈ hs.foldl insertSet l ↔ y ∈ l ∨ y ∈ hs := by
  induction hs with
  | nil => simp
  | cons a t ih =>
    intro l y
    simp only [List.foldl_cons, ih, mem_insertSet, List.mem_cons]
    tauto

theorem nodup_foldl_insertSet (hs : List String) : ∀ (l : List String), l.Nodup →
    (hs.foldl insertSet l).Nodup := by
  induction hs with
  | nil => exact fun l h => h
  | cons a t ih => exact fun l h => ih _ (nodup_insertSet h)

/-- Per-`emit` invariants: the temporary counter grows by exactly the
instruction's consumption, the parameter vector is untouched, and the two
handle sets together grow by exactly the instruction's touched handles
(staying duplicate-free). -/
theorem emit_facts {i : Instr} {ops : List String} {st st' : Wasmtime} {res : List String}
    (h : emit i ops st = .ok (st', res)) :
    st'.tmp = st.tmp + tmpUses i
    ∧ st'.params = st.params
    ∧ (∀ x, (x ∈ st'.all_needed_handles ∨ x ∈ st'.handles_for_func)
        ↔ (x ∈ st.all_needed_handles ∨ x ∈ st.handles_for_func ∨ x ∈ touchedHandles i))
    ∧ (st.all_needed_handles.Nodup → st.handles_for_func.Nodup →
        st'.all_needed_handles.Nodup ∧ st'.handles_for_func.Nodup) := by
  cases i with
  | GetArg nth =>
    simp only [emit] at h
    split at h
    · injection h with h1
      injection h1 with h2 h3
      subst h2
      exact ⟨rfl, rfl, fun x => by simp [touchedHandles], fun h1 h2 => ⟨h1, h2⟩⟩
    · simp at h
  | S8FromI32 =>
    cases ops with
    | nil => simp [emit] at h
    | cons op rest =>
      simp only [emit] at h
      injection h with h1
      injection h1 with h2 h3
      subst h2
      exact ⟨rfl, rfl, fun x => by simp [touchedHandles], fun h1 h2 => ⟨h1, h2⟩⟩
  | U8FromI32 =>
    cases ops with
    | nil => simp [emit] at h
    | cons op rest =>
      simp only [emit] at h
      injection h with h1
      injection h1 with h2 h3
      subst h2
      exact ⟨rfl, rfl, fun x => by simp [touchedHandles], fun h1 h2 => ⟨h1, h2⟩⟩
  | Char8FromI32 =>
    cases ops with
    | nil => simp [emit] at h
    | cons op rest =>
      simp only [emit] at h
      injection h with h1
      injection h1 with h2 h3
      subst h2
      exact ⟨rfl, rfl, fun x => by simp [touchedHandles], fun h1 h2 => ⟨h1, h2⟩⟩
  | S16FromI32 =>
    cases ops with
    | nil => simp [emit] at h
    | cons op rest =>
      simp only [emit] at h
      injection h with h1
      injection h1 with h2 h3
      subst h2
      exact ⟨rfl, rfl, fun x => by simp [touchedHandles], fun h1 h2 => ⟨h1, h2⟩⟩
  | U16FromI32 =>
    cases ops with
    | nil => simp [emit] at h
    | cons op rest =>
      simp only [emit] at h
      injection h with h1
      injection h1 with h2 h3
      subst h2
      exact ⟨rfl, rfl, fun x => by simp [touchedHandles], fun h1 h2 => ⟨h1, h2⟩⟩
  | CharFromI32 =>
    cases ops with
    | nil => simp [emit] at h
    | cons op rest =>
      simp only [emit] at h
      injection h with h1
      injection h1 with h2 h3
      subst h2
      exact ⟨rfl, rfl, fun x => by simp [touchedHandles], fun h1 h2 => ⟨h1, h2⟩⟩
  | BitflagsFromI32 repr name =>
    cases ops with
    | nil => simp [emit] at h
    | cons op rest =>
      simp only [emit] at h
      injection h with h1
      injection h1 with h2 h3
      subst h2
      exact ⟨rfl, rfl, fun x => by simp [touchedHandles], fun h1 h2 => ⟨h1, h2⟩⟩
  | BitflagsFromI64 repr name =>
    cases ops with
    | nil => simp [emit] at h
    | cons op rest =>
      simp only [emit] at h
      injection h with h1
      injection h1 with h2 h3
      subst h2
      exact ⟨rfl, rfl, fun x => by simp [touchedHandles], fun h1 h2 => ⟨h1, h2⟩⟩
  | I32FromOwnedHandle ty =>
    cases ops with
    | nil => simp [emit] at h
    | cons op rest =>
      simp only [emit] at h
      injection h with h1
      injection h1 with h2 h3
      subst h2
      refine ⟨rfl, rfl, fun x => ?_, fun h1 h2 => ⟨nodup_insertSet h1, h2⟩⟩
      simp only [touchedHandles, mem_insertSet, List.mem_singleton]
      tauto
  | HandleBorrowedFromI32 ty =>
    cases ops with
    | nil => simp [emit] at h
    | cons op rest =>
      simp only [emit] at h
      split at h
      · injection h with h1
        injection h1 with h2 h3
        subst h2
        refine ⟨rfl, rfl, fun x => ?_, fun h1 h2 => ⟨nodup_insertSet h1, h2⟩⟩
        simp only [touchedHandles, mem_insertSet, List.mem_singleton]
        tauto
      · injection h with h1
        injection h1 with h2 h3
        subst h2
        refine ⟨rfl, rfl, fun x => ?_, fun h1 h2 => ⟨h1, nodup_insertSet h2⟩⟩
        simp only [touchedHandles, mem_insertSet, List.mem_singleton]
        try tauto
  | VariantLift ty name =>
    cases ops with
    | nil => simp [emit] at h
    | cons op rest =>
      simp only [emit] at h
      split at h
      · split at h
        · simp at h
        · injection h with h1
          injection h1 with h2 h3
          subst h2
          exact ⟨rfl, rfl, fun x => by simp [touchedHandles], fun h1 h2 => ⟨h1, h2⟩⟩
      · simp at h
  | ListCanonLower element malloc =>
    cases ops with
    | nil => simp [emit] at h
    | cons op rest =>
      simp only [emit, Wasmtime.tmpNext, Wasmtime.pushStr] at h
      injection h with h1
      injection h1 with h2 h3
      subst h2
      exact ⟨rfl, rfl, fun x => by simp [touchedHandles], fun h1 h2 => ⟨h1, h2⟩⟩
  | ListCanonLift element free =>
    cases ops with
    | nil => simp [emit] at h
    | cons op0 rest =>
      cases rest with
      | nil => simp [emit] at h
      | cons op1 rest2 =>
        cases free with
        | some f =>
          simp only [emit] at h
          split at h
          · injection h with h1
            injection h1 with h2 h3
            subst h2
            exact ⟨rfl, rfl, fun x => by simp [touchedHandles], fun h1 h2 => ⟨h1, h2⟩⟩
          · injection h with h1
            injection h1 with h2 h3
            subst h2
            exact ⟨rfl, rfl, fun x => by simp [touchedHandles], fun h1 h2 => ⟨h1, h2⟩⟩
        | none =>
          simp only [emit] at h
          injection h with h1
          injection h1 with h2 h3
          subst h2
          exact ⟨rfl, rfl, fun x => by simp [touchedHandles], fun h1 h2 => ⟨h1, h2⟩⟩
  | Return amt =>
    simp only [emit] at h
    split at h
    · simp at h
    · split at h
      · injection h with h1
        injection h1 with h2 h3
        subst h2
        exact ⟨rfl, rfl, fun x => by simp [touchedHandles, Wasmtime.pushStr],
          fun h1 h2 => ⟨h1, h2⟩⟩
      · injection h with h1
        injection h1 with h2 h3
        subst h2
        exact ⟨rfl, rfl, fun x => by simp [touchedHandles, Wasmtime.pushStr],
          fun h1 h2 => ⟨h1, h2⟩⟩

/-- The `emit_facts` invariants lifted over a whole instruction stream. -/
theorem runInstrs_facts : ∀ (l : List Instr) (stack : List String) (st st' : Wasmtime)
    (stack' : List String), runInstrs l stack st = .ok (st', stack') →
    st'.tmp = st.tmp + tmpCount l
    ∧ st'.params = st.params
    ∧ (∀ x, (x ∈ st'.all_needed_handles ∨ x ∈ st'.handles_for_func)
        ↔ (x ∈ st.all_needed_handles ∨ x ∈ st.handles_for_func ∨ x ∈ touchedInstrs l))
    ∧ (st.all_needed_handles.Nodup → st.handles_for_func.Nodup →
        st'.all_needed_handles.Nodup ∧ st'.handles_for_func.Nodup) := by
  intro l
  induction l with
  | nil =>
    intro stack st st' stack' h
    simp only [runInstrs] at h
    injection h with h1
    injection h1 with h2 h3
    subst h2
    exact ⟨rfl, rfl, fun x => by simp [touchedInstrs], fun h1 h2 => ⟨h1, h2⟩⟩
  | cons a t ih =>
    intro stack st st' stack' h
    simp only [runInstrs] at h
    split at h
    · split at h
      · simp at h
      · rename_i st1 res heq
        obtain ⟨iht, ihp, ihm, ihn⟩ := ih _ _ _ _ h
        obtain ⟨et, ep, em, en⟩ := emit_facts heq
        refine ⟨?_, ?_, fun x => ?_, fun h1 h2 => ihn (en h1 h2).1 (en h1 h2).2⟩
        · rw [iht, et]
          simp only [tmpCount, List.map_cons, List.sum_cons]
          omega
        · rw [ihp, ep]
        · have h3 : x ∈ touchedInstrs (a :: t)
              ↔ x ∈ touchedHandles a ∨ x ∈ touchedInstrs t := by
            simp [touchedInstrs]
          rw [ihm x, h3]
          have hx := em x
          constructor
          · rintro (hh | hh | hh)
            · rcases hx.mp (Or.inl hh) with h' | h' | h'
              · exact Or.inl h'
              · exact Or.inr (Or.inl h')
              · exact Or.inr (Or.inr (Or.inl h'))
            · rcases hx.mp (Or.inr hh) with h' | h' | h'
              · exact Or.inl h'
              · exact Or.inr (Or.inl h')
              · exact Or.inr (Or.inr (Or.inl h'))
            · exact Or.inr (Or.inr (Or.inr hh))
          · rintro (hh | hh | hh | hh)
            · rcases hx.mpr (Or.inl hh) with h' | h'
              · exact Or.inl h'
              · exact Or.inr (Or.inl h')
            · rcases hx.mpr (Or.inr (Or.inl hh)) with h' | h'
              · exact Or.inl h'
              · exact Or.inr (Or.inl h')
            · rcases hx.mpr (Or.inr (Or.inr hh)) with h' | h'
              · exact Or.inl h'
              · exact Or.inr (Or.inl h')
            · exact Or.inr (Or.inr hh)
    · simp at h

/-- Per-`Generator::import` invariants: the temporary counter is NOT
reset (it advances by the stream's consumption); the per-function scratch
(parameter vector, needed-guest-functions map, per-function handle set,
memory flags) is cleared or rebuilt; the global handle set absorbs the
handles the function touched; cleanup is empty at the boundary. -/
theorem import_facts {module : String} {f : FuncDesc} {st st' : Wasmtime}
    (h : Generator.import module f st = .ok st') :
    st'.tmp = st.tmp + tmpCount f.instrs
    ∧ (∀ x, x ∈ st'.all_needed_handles
        ↔ (x ∈ st.all_needed_handles ∨ x ∈ st.handles_for_func ∨ x ∈ touchedInstrs f.instrs))
    ∧ st'.handles_for_func = []
    ∧ st'.params = (List.range f.wasm_params.length).map (fun i => "arg" ++ toString i)
    ∧ st'.needs_functions = []
    ∧ st'.needs_memory = false
    ∧ st'.needs_guest_memory = false
    ∧ st'.cleanup = none
    ∧ (st.all_needed_handles.Nodup → st.handles_for_func.Nodup →
        st'.all_needed_handles.Nodup) := by
  simp only [Generator.import] at h
  split at h
  · simp at h
  · rename_i st1 stack1 heq
    obtain ⟨rt, rp, rm, rn⟩ := runInstrs_facts _ _ _ _ _ heq
    split at h
    · rename_i hclean
      injection h with h1
      subst h1
      refine ⟨by simpa using rt, ?_, rfl, by simpa using rp, rfl, rfl, rfl, ?_, ?_⟩
      · intro x
        have hx := rm x
        simp only [List.mem_map] at hx
        simp only [mem_foldl_insertSet]
        constructor
        · intro hin
          have := hx.mp (by tauto)
          simpa using this
        · intro hin
          have := hx.mpr (by simpa using hin)
          tauto
      · simpa [Option.isNone_iff_eq_none] using hclean
      · intro h1 h2
        exact nodup_foldl_insertSet st1.handles_for_func st1.all_needed_handles
          (rn h1 h2).1
    · simp at h

/-- Per-`Generator::export` invariants, mirroring `import_facts` (the
export side asserts the per-function handle set stays empty). -/
theorem export_facts {module : String} {f : FuncDesc} {st st' : Wasmtime}
    (h : Generator.export module f st = .ok st') :
    st'.tmp = st.tmp + tmpCount f.instrs
    ∧ (∀ x, x ∈ st'.all_needed_handles
        ↔ (x ∈ st.all_needed_handles ∨ x ∈ st.handles_for_func ∨ x ∈ touchedInstrs f.instrs))
    ∧ st'.handles_for_func = []
    ∧ st'.needs_functions = []
    ∧ st'.needs_memory = false
    ∧ st'.needs_guest_memory = false
    ∧ (st.all_needed_handles.Nodup → st.handles_for_func.Nodup →
        st'.all_needed_handles.Nodup) := by
  simp only [Generator.export] at h
  split at h
  · simp at h
  · rename_i st1 stack1 heq
    obtain ⟨rt, rp, rm, rn⟩ := runInstrs_facts _ _ _ _ _ heq
    split at h
    · simp at h
    · rename_i hguest
      split at h
      · simp at h
      · rename_i hhff
        split at h
        · simp at h
        · injection h with h1
          subst h1
          have hhff' : st1.handles_for_func = [] := by
            simpa using hhff
          refine ⟨by simpa using rt, ?_, by simpa using hhff', rfl, rfl,
            by simpa using hguest, ?_⟩
          · intro x
            have hx := rm x
            rw [hhff'] at hx
            simp only [List.not_mem_nil, or_false] at hx
            constructor
            · intro hin
              have hin' : x ∈ st1.all_needed_handles := hin
              simpa using hx.mp hin'
            · intro hin
              exact hx.mpr (by simpa using hin)
          · intro h1 h2
            exact (rn h1 h2).1

/-- `import_facts`/`export_facts` merged over `runEntry`. -/
theorem runEntry_facts {b : Bool} {module : String} {f : FuncDesc} {st st' : Wasmtime}
    (h : runEntry b module f st = .ok st') :
    st'.tmp = st.tmp + tmpCount f.instrs
    ∧ (∀ x, x ∈ st'.all_needed_handles
        ↔ (x ∈ st.all_needed_handles ∨ x ∈ st.handles_for_func ∨ x ∈ touchedInstrs f.instrs))
    ∧ st'.handles_for_func = []
    ∧ st'.needs_functions = []
    ∧ st'.needs_memory = false
    ∧ st'.needs_guest_memory = false
    ∧ (st.all_needed_handles.Nodup → st.handles_for_func.Nodup →
        st'.all_needed_handles.Nodup) := by
  cases b with
  | true =>
    obtain ⟨t1, t2, t3, _t4, t5, t6, t7, _t8, t9⟩ := import_facts (by simpa [runEntry] using h)
    exact ⟨t1, t2, t3, t5, t6, t7, t9⟩
  | false =>
    exact export_facts (by simpa [runEntry] using h)

/-- The handle-closure invariant over a whole generation run (started,
as every run is, with an empty per-function handle set). -/
theorem processAll_facts : ∀ (entries : List (Bool × String × FuncDesc)) (st st' : Wasmtime),
    processAll entries st = .ok st' → st.handles_for_func = [] →
    (∀ x, x ∈ st'.all_needed_handles
      ↔ (x ∈ st.all_needed_handles ∨ x ∈ touchedAll entries))
    ∧ (st.all_needed_handles.Nodup → st'.all_needed_handles.Nodup) := by
  intro entries
  induction entries with
  | nil =>
    intro st st' h _hff
    simp only [processAll] at h
    injection h with h1
    subst h1
    exact ⟨fun x => by simp [touchedAll], fun h1 => h1⟩
  | cons e rest ih =>
    intro st st' h hff
    simp only [processAll] at h
    split at h
    · simp at h
    · rename_i st1 heq
      obtain ⟨_e1, e2, e3, _e4, _e5, _e6, e7⟩ := runEntry_facts heq
      obtain ⟨i2, i7⟩ := ih _ _ h e3
      constructor
      · intro x
        have hx1 := i2 x
        have hx2 := e2 x
        rw [hff] at hx2
        simp only [List.not_mem_nil, false_or] at hx2
        have hsplit : x ∈ touchedAll (e :: rest)
            ↔ x ∈ touchedInstrs e.2.2.instrs ∨ x ∈ touchedAll rest := by
          simp [touchedAll]
        rw [hx1, hx2, hsplit]
        constructor
        · rintro ((hh | hh) | hh)
          · exact Or.inl hh
          · exact Or.inr (Or.inl hh)
          · exact Or.inr (Or.inr hh)
        · rintro (hh | hh | hh)
          · exact Or.inl (Or.inl hh)
          · exact Or.inl (Or.inr hh)
          · exact Or.inr hh
      · intro h1
        exact i7 (e7 h1 (hff ▸ List.nodup_nil))

/-- An import whose stream consumes one temporary (`ListCanonLower`). -/
def funcC2 : FuncDesc :=
  { name := "echo", wasm_params := [WasmType.i32],
    instrs := [Instr.GetArg 0,
      Instr.ListCanonLower { isChar := false, size := 1, align := 1 } "witx_malloc"] }

/-- C2 (counterexample): the claim says the temporary counter is reset by
each per-function entry point so that every function starts from the
counter's initial value (0 = `Wasmtime::new().tmp`); processing a single
function that consumed one temporary leaves the counter at 1, not at the
initial value — no entry point ever writes `tmp`. -/
theorem claim_C2_counterexample :
    (Generator.import "host" funcC2 Wasmtime.new).toOption.map Wasmtime.tmp = some 1
    ∧ (Generator.import "host" funcC2 Wasmtime.new).toOption.map Wasmtime.tmp
        ≠ some Wasmtime.new.tmp := by
  constructor
  · rfl
  · decide

/-- C2 (amended): the temporary counter is NOT cleared between functions —
each per-function entry point (import or export) leaves it at its prior
value plus the number of temporaries the function consumed, so it grows
monotonically across the whole run; the rest of the per-function scratch
(needed-guest-functions map, per-function handle set, memory flags) is
cleared at each function boundary. -/
theorem claim_C2_tmp_monotone (b : Bool) (module : String) (f : FuncDesc)
    (st st' : Wasmtime) (h : runEntry b module f st = .ok st') :
    st'.tmp = st.tmp + tmpCount f.instrs
    ∧ st'.needs_functions = []
    ∧ st'.handles_for_func = []
    ∧ st'.needs_memory = false
    ∧ st'.needs_guest_memory = false := by
  obtain ⟨t1, _t2, t3, t4, t5, t6, _t7⟩ := runEntry_facts h
  exact ⟨t1, t4, t3, t5, t6⟩

/-- The state after the `claim_C2_counterexample` run. -/
def stC2 : Wasmtime :=
  ((Generator.import "host" funcC2 Wasmtime.new).toOption).getD Wasmtime.new

theorem claim_C2_witness :
    stC2.tmp = Wasmtime.new.tmp + tmpCount funcC2.instrs
    ∧ stC2.needs_functions = []
    ∧ stC2.handles_for_func = []
    ∧ stC2.needs_memory = false
    ∧ stC2.needs_guest_memory = false :=
  claim_C2_tmp_monotone true "host" funcC2 Wasmtime.new stC2 (by rfl)

/-- C3: at finalization the globally-needed handles set holds exactly the
handle types touched during some processed function's transduction
(owned-handle inserts and both borrowed-handle sub-modes), each exactly
once; the `Glue` trait section emits one associated type and one table
accessor per element of that set. -/
theorem claim_C3_handle_closure (entries : List (Bool × String × FuncDesc)) (st' : Wasmtime)
    (h : processAll entries Wasmtime.new = .ok st') :
    (∀ x, x ∈ st'.all_needed_handles ↔ x ∈ touchedAll entries)
    ∧ st'.all_needed_handles.Nodup
    ∧ (∀ x, st'.all_needed_handles.count x = if x ∈ touchedAll entries then 1 else 0)
    ∧ finish_glue st'
        = st'.all_needed_handles.map (fun h => (glue_assoc_type h, glue_table_accessor h)) := by
  obtain ⟨m, n⟩ := processAll_facts entries Wasmtime.new st' h rfl
  have hmem : ∀ x, x ∈ st'.all_needed_handles ↔ x ∈ touchedAll entries := by
    intro x
    rw [m x]
    simp [Wasmtime.new]
  have hnd : st'.all_needed_handles.Nodup := n (by simp [Wasmtime.new])
  refine ⟨hmem, hnd, ?_, rfl⟩
  intro x
  by_cases hx : x ∈ touchedAll entries
  · rw [if_pos hx]
    exact List.count_eq_one_of_mem hnd ((hmem x).mpr hx)
  · rw [if_neg hx]
    exact List.count_eq_zero_of_not_mem (fun hc => hx ((hmem x).mp hc))

/-- A run with one import touching the handle type `fd`. -/
def entC3 : List (Bool × String × FuncDesc) :=
  [(true, "host",
    { name := "use-fd"
      wasm_params := [WasmType.i32]
      instrs := [Instr.GetArg 0, Instr.HandleBorrowedFromI32 "fd"] })]

/-- The state after the `entC3` run. -/
def stC3 : Wasmtime :=
  ((processAll entC3 Wasmtime.new).toOption).getD Wasmtime.new

theorem claim_C3_witness :
    ("fd" ∈ stC3.all_needed_handles ↔ "fd" ∈ touchedAll entC3)
    ∧ stC3.all_needed_handles.Nodup
    ∧ stC3.all_needed_handles.count "fd" = if "fd" ∈ touchedAll entC3 then 1 else 0 := by
  have h := claim_C3_handle_closure entC3 stC3 (by rfl)
  exact ⟨h.1 "fd", h.2.1, h.2.2.1 "fd"⟩

/-- Supporting fact: for byte-sized elements (`u8`, and `char` lists whose
byte view is their UTF-8 encoding at size 1) the lowered-then-lifted
vector does reproduce the input bytes with the right length, because
`size = len * 1 = len` makes `set_len(size)` coincide with `set_len(len)`. -/
theorem roundTripU8_id (l : List Nat) :
    roundTripU8 l = .ok { data := l, length := l.length } := by
  have hb : l.flatMap encU8 = l := by
    induction l with
    | nil => rfl
    | cons a t ih => simp [List.flatMap_cons, encU8, ih]
  unfold roundTripU8 listCanonRoundTrip
  rw [hb]
  simp only [store, copy_slice, Nat.mul_one, List.length_replicate, Nat.zero_add,
    Nat.le_refl, if_pos, List.take_zero, List.nil_append, List.drop_zero]
  rw [if_pos (by simp)]
  simp

/-- C1: the claim says `ListCanonLower` then `ListCanonLift` (deallocator
supplied, echoing guest) is the identity for T among u8, i32, f64, char, the
lifted vector having the same element count as the input.  Evaluating the
generated sequence at the one-element `i32` list `[5]` refutes it:
`copy_slice` executes `result.set_len(size)` with `size = len * 4` BYTES,
so the lifted `Vec<i32>` reports 4 elements instead of 1 (the `Vec` was
created with capacity `len`, so this also violates `set_len`'s contract).
Byte-sized elements are unaffected. -/
theorem claim_C1_copy_slice_length_bug :
    roundTripI32 [5] = .ok { data := [5, 0, 0, 0], length := 4 }
    ∧ ([(5 : Int)].length = 1 ∧ (4 : Nat) ≠ 1)
    ∧ roundTripU8 [1, 2, 3] = .ok { data := [1, 2, 3], length := 3 } := by
  refine ⟨rfl, ⟨rfl, by decide⟩, rfl⟩
